import Mathlib

/-!
Shallow embedding of `property_monitor.py` (class `PropertyMonitor`).

A listing is a record of five string fields, as built by the six
`parse_*` functions.  A snapshot is the persisted JSON object mapping a
site name to its list of listings; Python dicts preserve insertion
order, so a snapshot is embedded as an association list.

Effects are made explicit: the outcome of an HTTP fetch together with
the subsequent parse is a `FetchOutcome` per site; the writability of
the snapshot file and the success of the SMTP transaction are boolean
parameters of `run`; calls to `logger.error` are collected in a list of
`LogEvent`s.  `run` returns `Except RunError RunResult`: the `.error`
case models an exception escaping `run` (the snapshot write on line 121
of the source is the one statement not guarded by a `try`).
-/

namespace PropertyMonitor

/-- Embedding of one scraped listing: the dict with exactly the five
string fields appended by each of the six `parse_*` functions. -/
structure Listing where
  address : String
  price : String
  size : String
  link : String
  found_date : String
deriving DecidableEq, Repr

/-- Embedding of the persisted object: site name mapped to its listing
list, in insertion order, as `json.dump` writes it. -/
abbrev Snapshot := List (String × List Listing)

/-- Embedding of one entry of the `new_listings` result of `run`: the
dict with keys `site` and `details` built on lines 110-113. -/
structure NewListing where
  site : String
  details : Listing
deriving DecidableEq, Repr

/-- Outcome of the parser call on line 97: the returned list, or an
exception raised while parsing. -/
inductive ParseOutcome where
  | ok (listings : List Listing)
  | exn
deriving DecidableEq, Repr

/-- Outcome of `requests.get` on line 92 together with the parse that
follows when the status is 200: a response with a status code (the
parser field is only consulted when the status is 200), or an exception
raised by the request itself. -/
inductive FetchOutcome where
  | response (status : Nat) (parsed : ParseOutcome)
  | exn
deriving DecidableEq, Repr

/-- Calls to `logger.error` inside `run` and `send_notification`. -/
inductive LogEvent where
  | httpFailure (site : String) (status : Nat)
  | siteException (site : String)
  | emailFailure
deriving DecidableEq, Repr

/-- Exceptions that can escape `run`: only the unguarded snapshot write
(line 121, via `save_listings`). -/
inductive RunError where
  | saveFailed
deriving DecidableEq, Repr

/-- Result of a completed `run`: the returned `new_listings`, the
snapshot passed to `save_listings`, how many emails were delivered, and
the error log. -/
structure RunResult where
  newListings : List NewListing
  saved : Snapshot
  emailsSent : Nat
  log : List LogEvent
deriving DecidableEq, Repr

/-- Python `dict.get(k, d)` on an association list. -/
def dictGetD (m : Snapshot) (k : String) (d : List Listing) : List Listing :=
  match m with
  | [] => d
  | p :: rest => if p.1 = k then p.2 else dictGetD rest k d

/-- Python `m[k] = v` on an association list: update in place if the key
exists, else append (dict insertion-order semantics). -/
def dictSet (m : Snapshot) (k : String) (v : List Listing) : Snapshot :=
  match m with
  | [] => [(k, v)]
  | p :: rest => if p.1 = k then (k, v) :: rest else p :: dictSet rest k v

/-- Inner loop of lines 103-107: `is_new` starts true and becomes false
at the first previous listing with the same address and price. -/
def checkNew (l : Listing) : List Listing → Bool
  | [] => true
  | p :: rest =>
    if l.address = p.address && l.price = p.price then false
    else checkNew l rest

/-- Loop of lines 102-113: walk the scraped listings in order and tag
each one that `checkNew` classifies as new with the site name. -/
def collectNew (site : String) (previous : List Listing) : List Listing → List NewListing
  | [] => []
  | l :: rest =>
    if checkNew l previous then ⟨site, l⟩ :: collectNew site previous rest
    else collectNew site previous rest

/-- Mutable state of the loop over sites in `run`: `all_current_listings`,
`new_listings`, and the error log. -/
structure RunState where
  current : Snapshot
  newListings : List NewListing
  log : List LogEvent
deriving DecidableEq, Repr

/-- Body of the per-site loop (lines 89-118): on a 200 response with a
successful parse, record the listings and collect the new ones; on a
non-200 status or an exception, log and move on. -/
def processSite (previous : Snapshot) (st : RunState) (site : String × FetchOutcome) :
    RunState :=
  match site.2 with
  | .response status parsed =>
    if status = 200 then
      match parsed with
      | .ok listings =>
        { current := dictSet st.current site.1 listings,
          newListings :=
            st.newListings ++ collectNew site.1 (dictGetD previous site.1 []) listings,
          log := st.log }
      | .exn => { st with log := st.log ++ [.siteException site.1] }
    else { st with log := st.log ++ [.httpFailure site.1 status] }
  | .exn => { st with log := st.log ++ [.siteException site.1] }

/-- Embedding of `send_notification` (lines 351-415): with no recipient
(Python falsy: `None` or the empty string) it returns without sending;
otherwise the whole try block delivers one message when the SMTP
transaction succeeds, and logs the exception when it does not.  Returns
the number of messages delivered and the error log. -/
def send_notification (emailTo : Option String) (_newListings : List NewListing)
    (smtpOk : Bool) : Nat × List LogEvent :=
  match emailTo with
  | none => (0, [])
  | some a =>
    if a = "" then (0, [])
    else if smtpOk then (1, []) else (0, [LogEvent.emailFailure])

/-- Embedding of `run` (lines 82-130): fold the per-site loop over the
configured sites, write the snapshot (an exception here escapes `run`),
notify when `new_listings` is non-empty, and return `new_listings`. -/
def run (sites : List (String × FetchOutcome)) (previous : Snapshot)
    (emailTo : Option String) (saveOk smtpOk : Bool) : Except RunError RunResult :=
  let st := sites.foldl (processSite previous) ⟨[], [], []⟩
  if saveOk then
    let note :=
      if st.newListings.isEmpty then ((0 : Nat), ([] : List LogEvent))
      else send_notification emailTo st.newListings smtpOk
    Except.ok ⟨st.newListings, st.current, note.1, st.log ++ note.2⟩
  else Except.error RunError.saveFailed

/-- Python `str.lower()` (per-character, a faithful model for the
strings at hand). -/
def pyLower (s : String) : String := ⟨s.toList.map Char.toLower⟩

/-- Python `str.strip()`: drop leading and trailing whitespace. -/
def pyStrip (s : String) : String :=
  ⟨((s.toList.dropWhile Char.isWhitespace).reverse.dropWhile Char.isWhitespace).reverse⟩

/-- Helper for Python `in` on strings: does `t` start with `pat`? -/
def strStarts : List Char → List Char → Bool
  | [], _ => true
  | _ :: _, [] => false
  | c :: cs, d :: ds => c = d && strStarts cs ds

/-- Python `pat in s` on strings: substring containment. -/
def strHas (pat : List Char) : List Char → Bool
  | [] => pat.isEmpty
  | d :: ds => strStarts pat (d :: ds) || strHas pat ds

/-- One property card as the selectors of a `parse_*` function see it:
the stripped-ready text of the optional address, price and size elements
and the optional `href` of the link element, or a card whose extraction
raises (caught on lines 166-167 and skipped). -/
inductive Card where
  | fields (address price size linkHref : Option String)
  | exn
deriving DecidableEq, Repr

/-- Common body of the six `parse_*` functions (lines 133-349), which
differ only in their selector strings (absorbed into `Card`) and in the
base URL prepended to the link: skip cards without an address element,
keep a card when the lowered target street occurs in its lowered
stripped address, and fill absent elements with the fixed placeholders. -/
def parseListings (targetStreet baseUrl today : String) : List Card → List Listing
  | [] => []
  | Card.exn :: rest => parseListings targetStreet baseUrl today rest
  | Card.fields addr price size linkHref :: rest =>
    match addr with
    | none => parseListings targetStreet baseUrl today rest
    | some a =>
      let address := pyStrip a
      if strHas (pyLower targetStreet).toList (pyLower address).toList then
        { address := address,
          price := match price with | some t => pyStrip t | none => "Price not available",
          size := match size with | some t => pyStrip t | none => "Size not available",
          link := match linkHref with | some h => baseUrl ++ h | none => "#",
          found_date := today } :: parseListings targetStreet baseUrl today rest
      else parseListings targetStreet baseUrl today rest

/-- Lines 133-169. -/
def parse_boliga (target today : String) (cards : List Card) : List Listing :=
  parseListings target "https://www.boliga.dk" today cards

/-- Lines 171-205. -/
def parse_home (target today : String) (cards : List Card) : List Listing :=
  parseListings target "https://home.dk" today cards

/-- Lines 207-241. -/
def parse_nybolig (target today : String) (cards : List Card) : List Listing :=
  parseListings target "https://www.nybolig.dk" today cards

/-- Lines 243-277. -/
def parse_edc (target today : String) (cards : List Card) : List Listing :=
  parseListings target "https://www.edc.dk" today cards

/-- Lines 279-313. -/
def parse_danbolig (target today : String) (cards : List Card) : List Listing :=
  parseListings target "https://www.danbolig.dk" today cards

/-- Lines 315-349. -/
def parse_boligsiden (target today : String) (cards : List Card) : List Listing :=
  parseListings target "https://www.boligsiden.dk" today cards

/-!
Persistence (lines 65-80).  `save_listings` is `json.dump` of the
snapshot, `load_previous_listings` is `json.load` of the file (or `{}`
when the file is missing or unreadable).  The stdlib round-trips JSON
values exactly, so the file is modeled at the level of JSON values; the
typed reading of a JSON value back into a snapshot (the shape `run`
consumes via `previous_listings.get(...)` and the `address` and `price`
keys) is `jsonToSnapshot`.
-/

/-- JSON values as relevant to the persisted file: strings, arrays and
objects with fields in insertion order. -/
inductive JVal where
  | str (s : String)
  | arr (items : List JVal)
  | obj (fields : List (String × JVal))

/-- JSON object written for one listing dict. -/
def listingToJson (l : Listing) : JVal :=
  .obj [("address", .str l.address), ("price", .str l.price), ("size", .str l.size),
        ("link", .str l.link), ("found_date", .str l.found_date)]

/-- JSON object `json.dump` writes for a snapshot. -/
def snapshotToJson (s : Snapshot) : JVal :=
  .obj (s.map fun p => (p.1, .arr (p.2.map listingToJson)))

/-- Typed reading of a listing object. -/
def jsonToListing : JVal → Option Listing
  | .obj [("address", .str a), ("price", .str p), ("size", .str sz),
          ("link", .str lk), ("found_date", .str d)] => some ⟨a, p, sz, lk, d⟩
  | _ => none

/-- Typed reading of a list of listing objects. -/
def jsonToListingList : List JVal → Option (List Listing)
  | [] => some []
  | v :: rest =>
    match jsonToListing v, jsonToListingList rest with
    | some l, some ls => some (l :: ls)
    | _, _ => none

/-- Typed reading of the fields of a snapshot object. -/
def jsonToSiteList : List (String × JVal) → Option Snapshot
  | [] => some []
  | (k, .arr items) :: rest =>
    match jsonToListingList items, jsonToSiteList rest with
    | some ls, some s => some ((k, ls) :: s)
    | _, _ => none
  | _ => none

/-- Typed reading of a snapshot value. -/
def jsonToSnapshot : JVal → Option Snapshot
  | .obj fields => jsonToSiteList fields
  | _ => none

/-- Embedding of `save_listings` (lines 77-80): the file after the
write holds the JSON value of the snapshot. -/
def save_listings (s : Snapshot) : Option JVal := some (snapshotToJson s)

/-- Embedding of `load_previous_listings` (lines 65-75): the JSON value
in the file, or the empty object when there is no readable file. -/
def load_previous_listings (file : Option JVal) : JVal :=
  match file with
  | some v => v
  | none => .obj []

/-- Does a site iteration reach the listing-processing branch?  True
exactly for a 200 response whose parse returns. -/
def fetchSucceeds : FetchOutcome → Bool
  | .response 200 (.ok _) => true
  | _ => false

/-- Log entry `run` emits for a failing site: the non-200 message of
line 115, or the exception message of line 118. -/
def failLogEvent (site : String) : FetchOutcome → LogEvent
  | .response status _ =>
    if status = 200 then .siteException site else .httpFailure site status
  | .exn => .siteException site

/-- Snapshot accumulated by the loop over sites when it starts from
`cur`: characterizes the `current` component of the fold. -/
def savedAfter (cur : Snapshot) : List (String × FetchOutcome) → Snapshot
  | [] => cur
  | (nm, .response status parsed) :: rest =>
    if status = 200 then
      match parsed with
      | .ok ls => savedAfter (dictSet cur nm ls) rest
      | .exn => savedAfter cur rest
    else savedAfter cur rest
  | (_, .exn) :: rest => savedAfter cur rest

/-- New listings contributed by the loop over sites: characterizes the
`new_listings` component of the fold. -/
def newFrom (previous : Snapshot) : List (String × FetchOutcome) → List NewListing
  | [] => []
  | (nm, .response status parsed) :: rest =>
    if status = 200 then
      match parsed with
      | .ok ls => collectNew nm (dictGetD previous nm []) ls ++ newFrom previous rest
      | .exn => newFrom previous rest
    else newFrom previous rest
  | (_, .exn) :: rest => newFrom previous rest

/-- Error-log entries emitted by the loop over sites: characterizes the
log component of the fold. -/
def logsFrom : List (String × FetchOutcome) → List LogEvent
  | [] => []
  | (nm, .response status parsed) :: rest =>
    if status = 200 then
      match parsed with
      | .ok _ => logsFrom rest
      | .exn => .siteException nm :: logsFrom rest
    else .httpFailure nm status :: logsFrom rest
  | (nm, .exn) :: rest => .siteException nm :: logsFrom rest

/-- Specification-side definition, following the claim's words: the
expected `new_listings` result, with a listing classified new exactly
when no previously persisted listing for the same site shares both its
address string and its price string, tagged with its site name. -/
def specNewListings (previous : Snapshot) (sites : List (String × FetchOutcome)) :
    List NewListing :=
  sites.flatMap fun site =>
    match site.2 with
    | .response status parsed =>
      if status = 200 then
        match parsed with
        | .ok ls =>
          (ls.filter fun l =>
              decide (∀ p ∈ dictGetD previous site.1 [],
                ¬(l.address = p.address ∧ l.price = p.price))).map
            fun l => (⟨site.1, l⟩ : NewListing)
        | .exn => []
      else []
    | .exn => []

/-- Specification-side definition, following the claim's words: the
expected persisted snapshot, one entry per site successfully fetched and
parsed this run, in site order, with nothing taken from the previous
snapshot. -/
def specPersisted (sites : List (String × FetchOutcome)) : Snapshot :=
  sites.filterMap fun s =>
    match s.2 with
    | .response status parsed =>
      if status = 200 then
        match parsed with
        | .ok ls => some (s.1, ls)
        | .exn => none
      else none
    | .exn => none

/-- Sample listing used to instantiate the theorems on concrete data. -/
def sampleListing : Listing :=
  ⟨"x 1", "1 kr", "Size not available", "#", "d"⟩

/-- Sample one-site configuration: a 200 response whose parse yields the
sample listing. -/
def sampleSites : List (String × FetchOutcome) :=
  [("Boliga", .response 200 (.ok [sampleListing]))]

theorem foldl_processSite (previous : Snapshot) (sites : List (String × FetchOutcome)) :
    ∀ (c : Snapshot) (nl : List NewListing) (lg : List LogEvent),
      sites.foldl (processSite previous) ⟨c, nl, lg⟩ =
        ⟨savedAfter c sites, nl ++ newFrom previous sites, lg ++ logsFrom sites⟩ := by
  induction sites with
  | nil => intro c nl lg; simp [savedAfter, newFrom, logsFrom]
  | cons s rest ih =>
    intro c nl lg
    obtain ⟨nm, f⟩ := s
    cases f with
    | response status parsed =>
      by_cases h : status = 200
      · cases parsed with
        | ok ls => simp [processSite, h, savedAfter, newFrom, logsFrom, ih]
        | exn => simp [processSite, h, savedAfter, newFrom, logsFrom, ih]
      · simp [processSite, h, savedAfter, newFrom, logsFrom, ih]
    | exn => simp [processSite, savedAfter, newFrom, logsFrom, ih]

theorem checkNew_iff (l : Listing) (P : List Listing) :
    checkNew l P = true ↔ ∀ p ∈ P, ¬(l.address = p.address ∧ l.price = p.price) := by
  induction P with
  | nil => simp [checkNew]
  | cons p rest ih =>
    simp only [checkNew, List.forall_mem_cons]
    by_cases h1 : l.address = p.address
    · by_cases h2 : l.price = p.price
      · simp [h1, h2]
      · simp [h1, h2, ih]
    · simp [h1, ih]

theorem checkNew_eq_decide (l : Listing) (P : List Listing) :
    checkNew l P = decide (∀ p ∈ P, ¬(l.address = p.address ∧ l.price = p.price)) := by
  by_cases h : ∀ p ∈ P, ¬(l.address = p.address ∧ l.price = p.price)
  · rw [(checkNew_iff l P).2 h]
    exact (decide_eq_true h).symm
  · have h1 : checkNew l P = false := by
      cases hc : checkNew l P
      · rfl
      · exact absurd ((checkNew_iff l P).1 hc) h
    rw [h1]
    exact (decide_eq_false h).symm

theorem checkNew_of_mem (l : Listing) (P : List Listing) (h : l ∈ P) :
    checkNew l P = false := by
  cases hc : checkNew l P
  · rfl
  · exact absurd ⟨rfl, rfl⟩ ((checkNew_iff l P).1 hc l h)

theorem collectNew_eq_filter (site : String) (P ls : List Listing) :
    collectNew site P ls =
      (ls.filter fun l => checkNew l P).map fun l => ⟨site, l⟩ := by
  induction ls with
  | nil => simp [collectNew]
  | cons l rest ih =>
    by_cases h : checkNew l P = true
    · simp [collectNew, h, ih, List.filter_cons]
    · simp only [Bool.not_eq_true] at h
      simp [collectNew, h, ih, List.filter_cons]

theorem collectNew_eq_nil (site : String) (P ls : List Listing)
    (h : ∀ l ∈ ls, checkNew l P = false) :
    collectNew site P ls = [] := by
  rw [collectNew_eq_filter]
  have : ls.filter (fun l => checkNew l P) = [] := by
    rw [List.filter_eq_nil_iff]
    intro l hl
    simp [h l hl]
  simp [this]

theorem run_eq_ok (sites : List (String × FetchOutcome)) (previous : Snapshot)
    (emailTo : Option String) (smtpOk : Bool) :
    run sites previous emailTo true smtpOk =
      Except.ok
        ⟨newFrom previous sites, savedAfter [] sites,
          (if (newFrom previous sites).isEmpty then ((0 : Nat), ([] : List LogEvent))
           else send_notification emailTo (newFrom previous sites) smtpOk).1,
          logsFrom sites ++
            (if (newFrom previous sites).isEmpty then ((0 : Nat), ([] : List LogEvent))
             else send_notification emailTo (newFrom previous sites) smtpOk).2⟩ := by
  simp [run, foldl_processSite]

theorem run_eq_error (sites : List (String × FetchOutcome)) (previous : Snapshot)
    (emailTo : Option String) (smtpOk : Bool) :
    run sites previous emailTo false smtpOk = Except.error RunError.saveFailed := by
  simp [run]

theorem savedAfter_append (a b : List (String × FetchOutcome)) :
    ∀ c, savedAfter c (a ++ b) = savedAfter (savedAfter c a) b := by
  induction a with
  | nil => intro c; simp [savedAfter]
  | cons s rest ih =>
    intro c
    obtain ⟨nm, f⟩ := s
    cases f with
    | response status parsed =>
      by_cases h : status = 200
      · cases parsed with
        | ok ls => simp [savedAfter, h, ih]
        | exn => simp [savedAfter, h, ih]
      · simp [savedAfter, h, ih]
    | exn => simp [savedAfter, ih]

theorem newFrom_append (previous : Snapshot) (a b : List (String × FetchOutcome)) :
    newFrom previous (a ++ b) = newFrom previous a ++ newFrom previous b := by
  induction a with
  | nil => simp [newFrom]
  | cons s rest ih =>
    obtain ⟨nm, f⟩ := s
    cases f with
    | response status parsed =>
      by_cases h : status = 200
      · cases parsed with
        | ok ls => simp [newFrom, h, ih]
        | exn => simp [newFrom, h, ih]
      · simp [newFrom, h, ih]
    | exn => simp [newFrom, ih]

theorem logsFrom_append (a b : List (String × FetchOutcome)) :
    logsFrom (a ++ b) = logsFrom a ++ logsFrom b := by
  induction a with
  | nil => simp [logsFrom]
  | cons s rest ih =>
    obtain ⟨nm, f⟩ := s
    cases f with
    | response status parsed =>
      by_cases h : status = 200
      · cases parsed with
        | ok ls => simp [logsFrom, h, ih]
        | exn => simp [logsFrom, h, ih]
      · simp [logsFrom, h, ih]
    | exn => simp [logsFrom, ih]

theorem savedAfter_fail (c : Snapshot) (nm : String) (f : FetchOutcome)
    (hf : fetchSucceeds f = false) : savedAfter c [(nm, f)] = c := by
  cases f with
  | response status parsed =>
    by_cases h : status = 200
    · subst h
      cases parsed with
      | ok ls => exact absurd hf (by simp [fetchSucceeds])
      | exn => simp [savedAfter]
    · simp [savedAfter, h]
  | exn => simp [savedAfter]

theorem newFrom_fail (previous : Snapshot) (nm : String) (f : FetchOutcome)
    (hf : fetchSucceeds f = false) : newFrom previous [(nm, f)] = [] := by
  cases f with
  | response status parsed =>
    by_cases h : status = 200
    · subst h
      cases parsed with
      | ok ls => exact absurd hf (by simp [fetchSucceeds])
      | exn => simp [newFrom]
    · simp [newFrom, h]
  | exn => simp [newFrom]

theorem logsFrom_fail (nm : String) (f : FetchOutcome)
    (hf : fetchSucceeds f = false) : logsFrom [(nm, f)] = [failLogEvent nm f] := by
  cases f with
  | response status parsed =>
    by_cases h : status = 200
    · subst h
      cases parsed with
      | ok ls => exact absurd hf (by simp [fetchSucceeds])
      | exn => simp [logsFrom, failLogEvent]
    · simp [logsFrom, failLogEvent, h]
  | exn => simp [logsFrom, failLogEvent]

theorem newFrom_eq_spec (previous : Snapshot) (sites : List (String × FetchOutcome)) :
    newFrom previous sites = specNewListings previous sites := by
  induction sites with
  | nil => simp [newFrom, specNewListings]
  | cons s rest ih =>
    obtain ⟨nm, f⟩ := s
    cases f with
    | response status parsed =>
      by_cases h : status = 200
      · cases parsed with
        | ok ls =>
          simp only [newFrom, specNewListings, h, if_true, List.flatMap_cons]
          rw [collectNew_eq_filter]
          have hfil :
              (ls.filter fun l => checkNew l (dictGetD previous nm [])) =
                ls.filter fun l =>
                  decide (∀ p ∈ dictGetD previous nm [],
                    ¬(l.address = p.address ∧ l.price = p.price)) :=
            List.filter_congr fun l _ => checkNew_eq_decide l _
          rw [hfil]
          simpa [specNewListings] using ih
        | exn => simp only [newFrom, specNewListings, h, if_true, List.flatMap_cons]
                 simpa [specNewListings] using ih
      · simp only [newFrom, specNewListings, h, if_false, List.flatMap_cons]
        simpa [specNewListings, h] using ih
    | exn =>
      simp only [newFrom, specNewListings, List.flatMap_cons]
      simpa [specNewListings] using ih

theorem dictSet_fresh (c : Snapshot) (k : String) (v : List Listing)
    (h : ∀ q ∈ c, q.1 ≠ k) : dictSet c k v = c ++ [(k, v)] := by
  induction c with
  | nil => simp [dictSet]
  | cons q rest ih =>
    have hq : q.1 ≠ k := h q (by simp)
    simp [dictSet, hq, ih fun x hx => h x (by simp [hx])]

theorem savedAfter_eq_spec (sites : List (String × FetchOutcome)) :
    ∀ c : Snapshot, (∀ k ∈ sites.map Prod.fst, ∀ q ∈ c, q.1 ≠ k) →
      (sites.map Prod.fst).Nodup →
      savedAfter c sites = c ++ specPersisted sites := by
  induction sites with
  | nil => intro c _ _; simp [savedAfter, specPersisted]
  | cons s rest ih =>
    intro c hc hnd
    obtain ⟨nm, f⟩ := s
    have hnd2 : (nm :: rest.map Prod.fst).Nodup := by simpa using hnd
    have hnm : nm ∉ rest.map Prod.fst := (List.nodup_cons.mp hnd2).1
    have hnd' : (rest.map Prod.fst).Nodup := (List.nodup_cons.mp hnd2).2
    have hc' : ∀ k ∈ rest.map Prod.fst, ∀ q ∈ c, q.1 ≠ k := by
      intro k hk q hq
      exact hc k (by simp [hk]) q hq
    cases f with
    | response status parsed =>
      by_cases h : status = 200
      · cases parsed with
        | ok ls =>
          have hset : dictSet c nm ls = c ++ [(nm, ls)] :=
            dictSet_fresh c nm ls fun q hq => hc nm (by simp) q hq
          have hrest : ∀ k ∈ rest.map Prod.fst, ∀ q ∈ c ++ [(nm, ls)], q.1 ≠ k := by
            intro k hk q hq
            rcases List.mem_append.mp hq with hq1 | hq2
            · exact hc' k hk q hq1
            · have hqe : q = (nm, ls) := by simpa using hq2
              subst hqe
              intro hek
              have hnk : nm = k := hek
              exact hnm (by rw [hnk]; exact hk)
          simp only [savedAfter, specPersisted, h, if_true, List.filterMap_cons]
          rw [hset, ih (c ++ [(nm, ls)]) hrest hnd']
          simp [specPersisted]
        | exn =>
          simp only [savedAfter, specPersisted, h, if_true, List.filterMap_cons]
          rw [ih c hc' hnd']
          simp [specPersisted]
      · simp only [savedAfter, specPersisted, h, if_false, List.filterMap_cons]
        rw [ih c hc' hnd']
        simp [specPersisted, h]
    | exn =>
      simp only [savedAfter, specPersisted, List.filterMap_cons]
      rw [ih c hc' hnd']
      simp [specPersisted]

theorem jsonToListing_listingToJson (l : Listing) :
    jsonToListing (listingToJson l) = some l := rfl

theorem jsonToListingList_map (ls : List Listing) :
    jsonToListingList (ls.map listingToJson) = some ls := by
  induction ls with
  | nil => simp [jsonToListingList]
  | cons l rest ih =>
    simp [jsonToListingList, jsonToListing_listingToJson, ih]

theorem jsonToSiteList_map (s : Snapshot) :
    jsonToSiteList (s.map fun p => (p.1, JVal.arr (p.2.map listingToJson))) = some s := by
  induction s with
  | nil => simp [jsonToSiteList]
  | cons p rest ih =>
    simp [jsonToSiteList, jsonToListingList_map, ih]

theorem parseListings_mem (target base today : String) (cards : List Card) (l : Listing)
    (h : l ∈ parseListings target base today cards) :
    strHas (pyLower target).toList (pyLower l.address).toList = true ∧
    l.found_date = today ∧
    ∃ a p s k, Card.fields (some a) p s k ∈ cards ∧
      l.address = pyStrip a ∧
      l.price = (match p with | some t => pyStrip t | none => "Price not available") ∧
      l.size = (match s with | some t => pyStrip t | none => "Size not available") ∧
      (k = none → l.link = "#") := by
  induction cards with
  | nil => simp [parseListings] at h
  | cons c rest ih =>
    cases c with
    | exn =>
      obtain ⟨h1, h2, a, p, s, k, hm, hrest⟩ := ih (by simpa [parseListings] using h)
      exact ⟨h1, h2, a, p, s, k, List.mem_cons_of_mem _ hm, hrest⟩
    | fields addr price size linkHref =>
      cases addr with
      | none =>
        obtain ⟨h1, h2, a, p, s, k, hm, hrest⟩ := ih (by simpa [parseListings] using h)
        exact ⟨h1, h2, a, p, s, k, List.mem_cons_of_mem _ hm, hrest⟩
      | some a =>
        by_cases hs : strHas (pyLower target).toList (pyLower (pyStrip a)).toList = true
        · simp only [parseListings, hs, if_true] at h
          rcases List.mem_cons.mp h with hl | hl
          · subst hl
            refine ⟨hs, rfl, a, price, size, linkHref, List.mem_cons_self _ _, rfl, rfl, rfl, ?_⟩
            intro hk
            simp [hk]
          · obtain ⟨h1, h2, a2, p2, s2, k2, hm, hrest⟩ := ih hl
            exact ⟨h1, h2, a2, p2, s2, k2, List.mem_cons_of_mem _ hm, hrest⟩
        · simp only [Bool.not_eq_true] at hs
          simp only [parseListings, hs, Bool.false_eq_true, if_false] at h
          obtain ⟨h1, h2, a2, p2, s2, k2, hm, hrest⟩ := ih h
          exact ⟨h1, h2, a2, p2, s2, k2, List.mem_cons_of_mem _ hm, hrest⟩

theorem newFrom_self (previous : Snapshot) :
    ∀ sites : List (String × FetchOutcome),
      (∀ s ∈ sites, ∃ ls, s.2 = FetchOutcome.response 200 (ParseOutcome.ok ls) ∧
        dictGetD previous s.1 [] = ls) →
      newFrom previous sites = [] := by
  intro sites
  induction sites with
  | nil => intro _; simp [newFrom]
  | cons s rest ih =>
    intro h
    obtain ⟨ls, hs, hprev⟩ := h s (by simp)
    obtain ⟨nm, f⟩ := s
    simp only at hs hprev
    subst hs
    simp only [newFrom, if_true]
    rw [show dictGetD previous nm [] = ls from hprev]
    rw [collectNew_eq_nil nm ls ls fun l hl => checkNew_of_mem l ls hl]
    simpa using ih fun s2 hs2 => h s2 (List.mem_cons_of_mem _ hs2)

/-- C1: for every site, given the scraped listing list and the
previously persisted one, `run` classifies a scraped listing as new iff
no previous listing for that site shares both its address string and its
price string, and appends exactly the new ones, in order, tagged with
the site name. -/
theorem run_classifies_new (sites : List (String × FetchOutcome)) (previous : Snapshot)
    (emailTo : Option String) (smtpOk : Bool) (r : RunResult)
    (h : run sites previous emailTo true smtpOk = Except.ok r) :
    r.newListings = specNewListings previous sites := by
  rw [run_eq_ok] at h
  have h2 := Except.ok.inj h
  subst h2
  exact newFrom_eq_spec previous sites

/-- Witness for C1 at a concrete one-site run against an empty previous
snapshot. -/
theorem run_classifies_new_witness :
    (RunResult.mk [⟨"Boliga", sampleListing⟩] [("Boliga", [sampleListing])] 1 []).newListings
      = specNewListings [] sampleSites :=
  run_classifies_new sampleSites [] (some "x@y") true
    (RunResult.mk [⟨"Boliga", sampleListing⟩] [("Boliga", [sampleListing])] 1 []) rfl

/-- C2: when every site's scraped list equals its previously persisted
list, `run` returns an empty new-listings list and sends no email. -/
theorem run_noop (sites : List (String × FetchOutcome)) (previous : Snapshot)
    (emailTo : Option String) (smtpOk : Bool)
    (h : ∀ s ∈ sites, ∃ ls, s.2 = FetchOutcome.response 200 (ParseOutcome.ok ls) ∧
      dictGetD previous s.1 [] = ls) :
    ∀ r, run sites previous emailTo true smtpOk = Except.ok r →
      r.newListings = [] ∧ r.emailsSent = 0 := by
  intro r hr
  rw [run_eq_ok] at hr
  have h2 := Except.ok.inj hr
  subst h2
  simp [newFrom_self previous sites h]

/-- Witness for C2: the sample site scraped identically to the stored
snapshot yields no new listings and no email. -/
theorem run_noop_witness :
    (RunResult.mk [] [("Boliga", [sampleListing])] 0 []).newListings = [] ∧
    (RunResult.mk [] [("Boliga", [sampleListing])] 0 []).emailsSent = 0 :=
  run_noop sampleSites [("Boliga", [sampleListing])] (some "x@y") true
    (by
      intro s hs
      simp only [sampleSites, List.mem_singleton] at hs
      subst hs
      exact ⟨[sampleListing], rfl, rfl⟩)
    (RunResult.mk [] [("Boliga", [sampleListing])] 0 []) rfl

/-- C4: saving a snapshot and reloading the file yields the same
snapshot (round-trip equality through the persisted JSON value). -/
theorem save_load_roundtrip (s : Snapshot) :
    jsonToSnapshot (load_previous_listings (save_listings s)) = some s := by
  show jsonToSnapshot (snapshotToJson s) = some s
  simpa [jsonToSnapshot, snapshotToJson] using jsonToSiteList_map s

/-- C6 counterexample: a failing snapshot write makes `run` raise
instead of returning the new-listings list. -/
theorem run_save_failure_raises :
    run [] [] none false true = Except.error RunError.saveFailed := rfl

/-- C6 amended: no per-site fetch/parse failure and no email-delivery
failure makes `run` raise, and `run` returns the new-listings list for
every such combination, provided the snapshot write succeeds; a failing
snapshot write propagates out of `run`. -/
theorem run_total_unless_save_fails (sites : List (String × FetchOutcome))
    (previous : Snapshot) (emailTo : Option String) (smtpOk : Bool) :
    (∃ r, run sites previous emailTo true smtpOk = Except.ok r) ∧
    run sites previous emailTo false smtpOk = Except.error RunError.saveFailed :=
  ⟨⟨_, run_eq_ok sites previous emailTo smtpOk⟩,
   run_eq_error sites previous emailTo smtpOk⟩

/-- C3: a site whose fetch returns a non-200 status or whose fetch or
parse raises contributes nothing to the result — the run behaves, up to
the error log, as if that site were absent, so the remaining sites are
still processed and nothing escapes `run` — and the failure is logged. -/
theorem run_failed_site_isolated (pre post : List (String × FetchOutcome))
    (nm : String) (f : FetchOutcome) (previous : Snapshot) (emailTo : Option String)
    (saveOk smtpOk : Bool) (hf : fetchSucceeds f = false) :
    (Except.map (fun r => (r.newListings, r.saved, r.emailsSent))
        (run (pre ++ (nm, f) :: post) previous emailTo saveOk smtpOk)
      = Except.map (fun r => (r.newListings, r.saved, r.emailsSent))
        (run (pre ++ post) previous emailTo saveOk smtpOk)) ∧
    ∀ r, run (pre ++ (nm, f) :: post) previous emailTo saveOk smtpOk = Except.ok r →
      failLogEvent nm f ∈ r.log := by
  have hnew : newFrom previous (pre ++ (nm, f) :: post) = newFrom previous (pre ++ post) := by
    rw [show (nm, f) :: post = [(nm, f)] ++ post from rfl, newFrom_append, newFrom_append,
      newFrom_append, newFrom_fail previous nm f hf]
    simp
  have hsaved : savedAfter [] (pre ++ (nm, f) :: post) = savedAfter [] (pre ++ post) := by
    rw [show (nm, f) :: post = [(nm, f)] ++ post from rfl, savedAfter_append, savedAfter_append,
      savedAfter_append, savedAfter_fail _ nm f hf]
  have hlogs : logsFrom (pre ++ (nm, f) :: post)
      = logsFrom pre ++ failLogEvent nm f :: logsFrom post := by
    rw [show (nm, f) :: post = [(nm, f)] ++ post from rfl, logsFrom_append, logsFrom_append,
      logsFrom_fail nm f hf]
    simp
  cases saveOk with
  | false =>
    refine ⟨by rw [run_eq_error, run_eq_error], ?_⟩
    intro r hr
    rw [run_eq_error] at hr
    exact absurd hr (by simp)
  | true =>
    constructor
    · rw [run_eq_ok, run_eq_ok]
      simp [hnew, hsaved, Except.map]
    · intro r hr
      rw [run_eq_ok] at hr
      have h2 := Except.ok.inj hr
      subst h2
      simp [hlogs]

/-- Witness for C3: one site raising an exception, no other sites. -/
theorem run_failed_site_isolated_witness :
    (Except.map (fun r => (r.newListings, r.saved, r.emailsSent))
        (run [("Home", FetchOutcome.exn)] [] none true true)
      = Except.map (fun r => (r.newListings, r.saved, r.emailsSent))
        (run [] [] none true true)) ∧
    failLogEvent "Home" FetchOutcome.exn ∈
      (RunResult.mk [] [] 0 [LogEvent.siteException "Home"]).log :=
  ⟨(run_failed_site_isolated [] [] "Home" FetchOutcome.exn [] none true true rfl).1,
   (run_failed_site_isolated [] [] "Home" FetchOutcome.exn [] none true true rfl).2
     (RunResult.mk [] [] 0 [LogEvent.siteException "Home"]) rfl⟩

/-- C5: the snapshot persisted by a run is exactly the mapping built
during that run — one entry per site successfully fetched and parsed
this run, in site order — and is independent of the previously persisted
snapshot, so nothing from it is merged in or kept. -/
theorem run_persists_current_only (sites : List (String × FetchOutcome))
    (previous : Snapshot) (emailTo : Option String) (smtpOk : Bool)
    (hnd : (sites.map Prod.fst).Nodup) :
    (∀ r, run sites previous emailTo true smtpOk = Except.ok r →
      r.saved = specPersisted sites) ∧
    ∀ previous', Except.map (fun r => r.saved) (run sites previous emailTo true smtpOk)
      = Except.map (fun r => r.saved) (run sites previous' emailTo true smtpOk) := by
  constructor
  · intro r hr
    rw [run_eq_ok] at hr
    have h2 := Except.ok.inj hr
    subst h2
    simpa using savedAfter_eq_spec sites [] (by simp) hnd
  · intro previous'
    rw [run_eq_ok, run_eq_ok]
    simp [Except.map]

/-- Witness for C5 at the sample one-site run. -/
theorem run_persists_current_only_witness :
    (RunResult.mk [] [("Boliga", [sampleListing])] 0 []).saved = specPersisted sampleSites ∧
    Except.map (fun r => r.saved) (run sampleSites [] none true true)
      = Except.map (fun r => r.saved) (run sampleSites [("Boliga", [sampleListing])] none true true) :=
  ⟨(run_persists_current_only sampleSites [("Boliga", [sampleListing])] none true (by simp [sampleSites])).1
     (RunResult.mk [] [("Boliga", [sampleListing])] 0 []) rfl,
   (run_persists_current_only sampleSites [] none true (by simp [sampleSites])).2
     [("Boliga", [sampleListing])]⟩

/-- C7: a failing email delivery is logged and leaves both the returned
new-listings list and the persisted snapshot exactly as a successful
delivery would. -/
theorem run_email_failure_frame (sites : List (String × FetchOutcome))
    (previous : Snapshot) (emailTo : Option String) (saveOk : Bool) :
    (Except.map (fun r => (r.newListings, r.saved))
        (run sites previous emailTo saveOk false)
      = Except.map (fun r => (r.newListings, r.saved))
        (run sites previous emailTo saveOk true)) ∧
    ∀ a r, emailTo = some a → a ≠ "" →
      run sites previous emailTo saveOk false = Except.ok r →
      r.newListings ≠ [] → LogEvent.emailFailure ∈ r.log := by
  cases saveOk with
  | false =>
    refine ⟨by rw [run_eq_error, run_eq_error], ?_⟩
    intro a r _ _ hr
    rw [run_eq_error] at hr
    exact absurd hr (by simp)
  | true =>
    constructor
    · rw [run_eq_ok, run_eq_ok]
      by_cases hn : (newFrom previous sites).isEmpty
      · simp [hn]
      · simp only [Bool.not_eq_true] at hn
        cases emailTo with
        | none => simp [hn, send_notification]
        | some a =>
          by_cases ha : a = ""
          · simp [hn, send_notification, ha]
          · simp [hn, send_notification, ha, Except.map]
    · intro a r ha hne hr hnonempty
      subst ha
      rw [run_eq_ok] at hr
      have h2 := Except.ok.inj hr
      subst h2
      simp only [RunResult.mk.injEq] at hnonempty ⊢
      have hn : (newFrom previous sites).isEmpty = false := by
        simpa [List.isEmpty_iff] using hnonempty
      simp [hn, send_notification, hne]

/-- Witness for C7 at the sample one-site run with a configured
recipient and a failing SMTP transaction. -/
theorem run_email_failure_frame_witness :
    (Except.map (fun r => (r.newListings, r.saved))
        (run sampleSites [] (some "x@y") true false)
      = Except.map (fun r => (r.newListings, r.saved))
        (run sampleSites [] (some "x@y") true true)) ∧
    LogEvent.emailFailure ∈
      (RunResult.mk [⟨"Boliga", sampleListing⟩] [("Boliga", [sampleListing])] 0
        [LogEvent.emailFailure]).log :=
  ⟨(run_email_failure_frame sampleSites [] (some "x@y") true).1,
   (run_email_failure_frame sampleSites [] (some "x@y") true).2 "x@y"
     (RunResult.mk [⟨"Boliga", sampleListing⟩] [("Boliga", [sampleListing])] 0
       [LogEvent.emailFailure]) rfl (by decide) rfl (by decide)⟩

/-- C8: with the SMTP transaction succeeding, exactly one message is
delivered iff the new-listings list is non-empty and a recipient is
configured (non-`None`, non-empty, the Python truthiness test of
`send_notification`); with no recipient, `send_notification` returns
without sending; never more than one message is delivered per run. -/
theorem run_email_sent_iff (sites : List (String × FetchOutcome)) (previous : Snapshot) :
    (∀ emailTo r, run sites previous emailTo true true = Except.ok r →
      (r.emailsSent = 1 ↔ (r.newListings ≠ [] ∧ ∃ a, emailTo = some a ∧ a ≠ ""))) ∧
    (∀ smtpOk r, run sites previous none true smtpOk = Except.ok r → r.emailsSent = 0) ∧
    ∀ emailTo smtpOk r, run sites previous emailTo true smtpOk = Except.ok r →
      r.emailsSent ≤ 1 := by
  refine ⟨?_, ?_, ?_⟩
  · intro emailTo r hr
    rw [run_eq_ok] at hr
    have h2 := Except.ok.inj hr
    subst h2
    by_cases hn : (newFrom previous sites).isEmpty
    · simp [hn, List.isEmpty_iff.mp hn]
    · simp only [Bool.not_eq_true] at hn
      have hne : newFrom previous sites ≠ [] := by
        simpa [List.isEmpty_iff] using hn
      cases emailTo with
      | none => simp [hn, send_notification]
      | some a =>
        by_cases ha : a = ""
        · simp [hn, send_notification, ha]
        · simp [hn, send_notification, ha, hne]
  · intro smtpOk r hr
    rw [run_eq_ok] at hr
    have h2 := Except.ok.inj hr
    subst h2
    by_cases hn : (newFrom previous sites).isEmpty
    · simp [hn]
    · simp only [Bool.not_eq_true] at hn
      simp [hn, send_notification]
  · intro emailTo smtpOk r hr
    rw [run_eq_ok] at hr
    have h2 := Except.ok.inj hr
    subst h2
    by_cases hn : (newFrom previous sites).isEmpty
    · simp [hn]
    · simp only [Bool.not_eq_true] at hn
      cases emailTo with
      | none => simp [hn, send_notification]
      | some a =>
        by_cases ha : a = ""
        · simp [hn, send_notification, ha]
        · cases smtpOk with
          | false => simp [hn, send_notification, ha]
          | true => simp [hn, send_notification, ha]

/-- Witness for C8: the sample run with a recipient delivers one
message; the same run with no recipient delivers none. -/
theorem run_email_sent_iff_witness :
    ((RunResult.mk [⟨"Boliga", sampleListing⟩] [("Boliga", [sampleListing])] 1 []).emailsSent = 1 ↔
      ((RunResult.mk [⟨"Boliga", sampleListing⟩] [("Boliga", [sampleListing])] 1 []).newListings ≠ [] ∧
        ∃ a, (some "x@y" : Option String) = some a ∧ a ≠ "")) ∧
    (RunResult.mk [⟨"Boliga", sampleListing⟩] [("Boliga", [sampleListing])] 0 []).emailsSent = 0 :=
  ⟨(run_email_sent_iff sampleSites []).1 (some "x@y")
     (RunResult.mk [⟨"Boliga", sampleListing⟩] [("Boliga", [sampleListing])] 1 []) rfl,
   (run_email_sent_iff sampleSites []).2.1 false
     (RunResult.mk [⟨"Boliga", sampleListing⟩] [("Boliga", [sampleListing])] 0 []) rfl⟩

/-- C9 counterexample: two identical property cards make `parse_boliga`
return the same listing twice, and `run` persists that list verbatim, so
a persisted site list can hold two distinct entries sharing both address
and price. -/
theorem run_persists_duplicates :
    ¬ ∀ r, run [("Boliga", FetchOutcome.response 200 (ParseOutcome.ok
          (parse_boliga "x" "d"
            [Card.fields (some "x 1") (some "1 kr") none none,
             Card.fields (some "x 1") (some "1 kr") none none])))]
        [] none true true = Except.ok r →
      ∀ p ∈ r.saved,
        List.Pairwise (fun a b : Listing => ¬(a.address = b.address ∧ a.price = b.price)) p.2 := by
  intro h
  have h2 := h (RunResult.mk
      [⟨"Boliga", sampleListing⟩, ⟨"Boliga", sampleListing⟩]
      [("Boliga", [sampleListing, sampleListing])] 0 []) rfl
    ("Boliga", [sampleListing, sampleListing]) (by simp)
  exact absurd h2 (by decide)

/-- C9 amended: the persisted snapshot keeps each successfully fetched
site's parsed listing list verbatim — nothing enforces uniqueness by
(address, price), so the invariant holds only when the parser output
already has it. -/
theorem run_persists_parser_output_verbatim (sites : List (String × FetchOutcome))
    (previous : Snapshot) (emailTo : Option String) (smtpOk : Bool)
    (nm : String) (ls : List Listing) (hnd : (sites.map Prod.fst).Nodup)
    (hmem : (nm, FetchOutcome.response 200 (ParseOutcome.ok ls)) ∈ sites) :
    ∀ r, run sites previous emailTo true smtpOk = Except.ok r → (nm, ls) ∈ r.saved := by
  intro r hr
  have hsv := (run_persists_current_only sites previous emailTo smtpOk hnd).1 r hr
  rw [hsv]
  exact List.mem_filterMap.mpr ⟨(nm, FetchOutcome.response 200 (ParseOutcome.ok ls)), hmem, rfl⟩

/-- Witness for C9 at the duplicate-listing run. -/
theorem run_persists_parser_output_verbatim_witness :
    ("Boliga", [sampleListing, sampleListing]) ∈
      (RunResult.mk [⟨"Boliga", sampleListing⟩, ⟨"Boliga", sampleListing⟩]
        [("Boliga", [sampleListing, sampleListing])] 0 []).saved :=
  run_persists_parser_output_verbatim
    [("Boliga", FetchOutcome.response 200 (ParseOutcome.ok [sampleListing, sampleListing]))]
    [] none true "Boliga" [sampleListing, sampleListing] (by simp) (by simp)
    (RunResult.mk [⟨"Boliga", sampleListing⟩, ⟨"Boliga", sampleListing⟩]
      [("Boliga", [sampleListing, sampleListing])] 0 []) rfl

/-- C10: every listing returned by any of the six parse functions has an
address containing the lowered target street as a substring of its
lowered form, carries the run date in `found_date`, and comes from a
card with an address element, with the price and size fields the
stripped element text or the fixed placeholder, and the link the fixed
"#" placeholder when the link element is absent. -/
theorem parse_functions_shape :
    ∀ f ∈ [parse_boliga, parse_home, parse_nybolig, parse_edc, parse_danbolig, parse_boligsiden],
      ∀ (target today : String) (cards : List Card) (l : Listing),
        l ∈ f target today cards →
        strHas (pyLower target).toList (pyLower l.address).toList = true ∧
        l.found_date = today ∧
        ∃ a p s k, Card.fields (some a) p s k ∈ cards ∧
          l.address = pyStrip a ∧
          l.price = (match p with | some t => pyStrip t | none => "Price not available") ∧
          l.size = (match s with | some t => pyStrip t | none => "Size not available") ∧
          (k = none → l.link = "#") := by
  intro f hf target today cards l hl
  simp only [List.mem_cons, List.not_mem_nil, or_false] at hf
  rcases hf with rfl | rfl | rfl | rfl | rfl | rfl <;>
    exact parseListings_mem target _ today cards l hl

/-- Witness for C10 at `parse_boliga` on one concrete card. -/
theorem parse_functions_shape_witness :
    strHas (pyLower "x").toList (pyLower sampleListing.address).toList = true ∧
    sampleListing.found_date = "d" ∧
    ∃ a p s k,
      Card.fields (some a) p s k ∈ [Card.fields (some "x 1") (some "1 kr") none none] ∧
      sampleListing.address = pyStrip a ∧
      sampleListing.price = (match p with | some t => pyStrip t | none => "Price not available") ∧
      sampleListing.size = (match s with | some t => pyStrip t | none => "Size not available") ∧
      (k = none → sampleListing.link = "#") :=
  parse_functions_shape parse_boliga (by simp) "x" "d"
    [Card.fields (some "x 1") (some "1 kr") none none] sampleListing (by decide)

end PropertyMonitor
